import Mathlib

/-!
Verification of the survey-analysis library: the in-memory tabular engine
(row filtering, answer-distribution computation, descriptive statistics)
and the REPL session state machine.

The embedding follows the Python source: a loaded DataFrame is a rectangular
table of cells, where a cell is a number (modelled as `ℚ`), a text value, or a
missing marker (pandas `NaN`).  Rows carry their original integer index, which
pandas preserves across filtering.
-/

namespace SurveyLib

/-- A cell of a loaded table: numeric (pandas numeric dtypes, modelled as `ℚ`),
text, or missing (`NaN`). -/
inductive Value where
  | num (q : ℚ)
  | str (s : String)
  | missing
deriving DecidableEq, Repr

/-- A loaded DataFrame: named columns plus rows; each row is its original
integer index paired with its cells, positionally aligned with `cols`. -/
structure DF where
  cols : List String
  rows : List (Nat × List Value)
deriving DecidableEq, Repr

/-- The cell of row `r` in column `c` (missing when the column is absent). -/
def DF.cell (df : DF) (c : String) (r : Nat × List Value) : Value :=
  r.2.getD (df.cols.indexOf c) .missing

/-- The column `c` of `df` as the list of its cells, in row order. -/
def DF.col (df : DF) (c : String) : List Value :=
  df.rows.map (df.cell c)

/-- Error taxonomy of the row-subset module (`subset.py`): `KeyError` for a
missing column, `ValueError` for an empty criteria list, and the `TypeError`
pandas raises when comparing unorderable data. -/
inductive SubsetError where
  | columnNotFound
  | emptyCriteria
  | typeMismatch
deriving DecidableEq, Repr

/-- Embedding of `subset.filter_by_column`: raises `KeyError` when the column
is absent, `ValueError` when `values` is empty, and otherwise keeps exactly the
rows whose cell is an element of `values` (pandas `Series.isin`, which compares
typed values, not rendered strings).  Row order and original indices are kept
because pandas boolean-mask selection preserves both. -/
def filter_by_column (df : DF) (column : String) (values : List Value) :
    Except SubsetError DF :=
  if column ∉ df.cols then .error .columnNotFound
  else if values = [] then .error .emptyCriteria
  else .ok { cols := df.cols
             rows := df.rows.filter (fun r => decide (df.cell column r ∈ values)) }

/-- Comparison `cell >= bound` as pandas evaluates it elementwise: numbers
compare numerically, strings lexicographically, a missing (`NaN`) cell compares
`False` against a number, and any other mixed comparison raises `TypeError`. -/
def cmpGE : Value → Value → Except SubsetError Bool
  | .num a, .num b => .ok (decide (b ≤ a))
  | .str a, .str b => .ok (decide (b ≤ a))
  | .missing, _ => .ok false
  | .num _, .missing => .ok false
  | _, _ => .error .typeMismatch

/-- Comparison `cell <= bound`, with the same type rules as `cmpGE`. -/
def cmpLE : Value → Value → Except SubsetError Bool
  | .num a, .num b => .ok (decide (a ≤ b))
  | .str a, .str b => .ok (decide (a ≤ b))
  | .missing, _ => .ok false
  | .num _, .missing => .ok false
  | _, _ => .error .typeMismatch

/-- Keeps the elements on which `p` answers `true`; the first raised error
aborts the whole selection, as an elementwise pandas comparison does. -/
def filterExc (p : α → Except SubsetError Bool) : List α → Except SubsetError (List α)
  | [] => .ok []
  | x :: t => do
    let b ← p x
    let rest ← filterExc p t
    pure (if b then x :: rest else rest)

/-- Embedding of `subset.filter_by_value_range`: checks the column, then
applies `cell >= min_value` and `cell <= max_value` in turn (each bound
optional); a `TypeError` from either comparison propagates. -/
def filter_by_value_range (df : DF) (column : String)
    (min_value max_value : Option Value) : Except SubsetError DF :=
  if column ∉ df.cols then .error .columnNotFound
  else
    match (match min_value with
           | none => Except.ok df.rows
           | some m => filterExc (fun r => cmpGE (df.cell column r) m) df.rows) with
    | .error e => .error e
    | .ok rows1 =>
      match (match max_value with
             | none => Except.ok rows1
             | some m => filterExc (fun r => cmpLE (df.cell column r) m) rows1) with
      | .error e => .error e
      | .ok rows2 => .ok { cols := df.cols, rows := rows2 }

/-- Rendering of a cell to text, as Python `str()` does inside
`astype(str)`: an integer-valued number prints without a fractional part,
text prints verbatim, and `NaN` prints as `nan`. -/
def Value.render : Value → String
  | .num q => if q.den = 1 then toString q.num else toString q
  | .str s => s
  | .missing => "nan"

/-- Splitting of a character list on a separator, as Python `str.split(sep)`
does: `"A;B"` gives `["A", "B"]`, the empty text gives `[""]`, and a trailing
separator produces a trailing empty fragment. -/
def splitCharsOn (sep : Char) : List Char → List (List Char)
  | [] => [[]]
  | c :: t =>
    let rest := splitCharsOn sep t
    if c = sep then [] :: rest
    else
      match rest with
      | [] => [[c]]
      | h :: t2 => (c :: h) :: t2

/-- Removal of surrounding whitespace, as Python `str.strip()` does. -/
def strip (s : String) : String :=
  ⟨((s.data.dropWhile Char.isWhitespace).reverse.dropWhile Char.isWhitespace).reverse⟩

/-- Splitting of a rendered cell on `;` followed by stripping each fragment:
the token emission step of the multi-valued distribution mode. -/
def splitTokens (s : String) : List String :=
  (splitCharsOn ';' s.data).map (fun cs => strip ⟨cs⟩)

/-- Cells that survive pandas `dropna`. -/
def nonMissing (l : List Value) : List Value :=
  l.filter (fun v => decide (v ≠ Value.missing))

/-- The stream of observations the distribution is taken over: in multi-valued
mode every non-missing cell is rendered, split on `;` and stripped, each
fragment one observation; in single-valued mode each non-missing raw cell is
one observation. -/
def tokenStream (df : DF) (question : String) (multi : Bool) : List Value :=
  if multi then
    ((nonMissing (df.col question)).map Value.render).flatMap
      (fun s => (splitTokens s).map Value.str)
  else nonMissing (df.col question)

/-- The distinct elements of a list in order of first occurrence. -/
def firstOccs [DecidableEq α] : List α → List α
  | [] => []
  | a :: t => a :: (firstOccs t).filter (fun b => decide (b ≠ a))

/-- Each distinct element paired with its multiplicity, in order of first
occurrence: the contents of a pandas hash-table count before sorting. -/
def countPairs [DecidableEq α] (l : List α) : List (α × Nat) :=
  (firstOccs l).map (fun a => (a, l.count a))

/-- Insertion step of a stable descending sort on the count component: the new
element goes after every strictly larger count and before every count that is
less than or equal, so earlier elements win ties. -/
def insertDesc (x : α × Nat) : List (α × Nat) → List (α × Nat)
  | [] => [x]
  | y :: t => if x.2 < y.2 then y :: insertDesc x t else x :: y :: t

/-- Stable insertion sort by descending count. -/
def sortDesc : List (α × Nat) → List (α × Nat)
  | [] => []
  | x :: t => insertDesc x (sortDesc t)

/-- Embedding of pandas `value_counts`: multiplicities of the distinct
elements, most frequent first, ties in order of first occurrence (pandas sorts
the hash-table counts with a stable descending sort). -/
def value_counts [DecidableEq α] (l : List α) : List (α × Nat) :=
  sortDesc (countPairs l)

/-- The `counts` variable of `Survey.answer_distribution`: `value_counts` of
the observation stream (raw non-missing cells in single-valued mode, emitted
tokens in multi-valued mode, the latter tagged as text values). -/
def answerCounts (df : DF) (question : String) (multi : Bool) : List (Value × Nat) :=
  value_counts (tokenStream df question multi)

/-- Embedding of `Survey.answer_distribution`: an absent column yields the
empty mapping; otherwise each counted token is mapped to its count divided by
the total (the length of the flattened token list in multi-valued mode, the
sum of the counts in single-valued mode), in `value_counts` order. -/
def answer_distribution (df : DF) (question : String) (multi : Bool) :
    List (Value × ℚ) :=
  if question ∉ df.cols then []
  else
    let counts := answerCounts df question multi
    let total : Nat :=
      if multi then (tokenStream df question multi).length
      else (counts.map (fun p => p.2)).sum
    counts.map (fun p => (p.1, (p.2 : ℚ) / (total : ℚ)))

/-- Error taxonomy of the statistics module (`stats.py`): the `KeyError`
pandas raises when a requested column is absent. -/
inductive StatsError where
  | columnNotFound
deriving DecidableEq, Repr

/-- Decision that a cell is a text value. -/
def Value.isStr : Value → Bool
  | .str _ => true
  | _ => false

/-- Decision that a cell belongs to a numeric dtype: numbers and `NaN`
(pandas stores missing numeric entries as `NaN` in a float column). -/
def isNumericVal : Value → Bool
  | .num _ => true
  | .str _ => false
  | .missing => true

/-- A column has a numeric inferred dtype when every cell is numeric or
missing (mixed text forces pandas to the non-numeric `object` dtype). -/
def DF.isNumericCol (df : DF) (c : String) : Bool :=
  (df.col c).all isNumericVal

/-- The numeric columns of a table in column order: what
`select_dtypes(include=[number])` keeps. -/
def DF.numericCols (df : DF) : List String :=
  df.cols.filter (fun c => df.isNumericCol c)

/-- The numeric contents of a column, missing entries dropped: the values all
pandas column statistics (which skip `NaN`) are computed over. -/
def numsOf (l : List Value) : List ℚ :=
  l.filterMap (fun v => match v with | .num q => some q | _ => none)

/-- Column selection `df[include]`: the requested columns in the requested
order (callers check existence before using this). -/
def DF.restrict (df : DF) (incl : List String) : DF :=
  { cols := incl
    rows := df.rows.map (fun r => (r.1, incl.map (fun c => df.cell c r))) }

/-- Number of non-missing entries (pandas `count`). -/
def countStat (xs : List ℚ) : Nat := xs.length

/-- Arithmetic mean of the non-missing entries; `NaN` (here `none`) on an
empty column, as pandas `mean` yields. -/
def meanStat (xs : List ℚ) : Option ℚ :=
  if xs.length = 0 then none else some (xs.sum / (xs.length : ℚ))

/-- The entries in nondecreasing order. -/
def sortedQ (xs : List ℚ) : List ℚ :=
  xs.insertionSort (fun a b => a ≤ b)

/-- Median as pandas computes it: middle entry of the sorted data when the
count is odd, average of the two middle entries when it is even. -/
def medianStat (xs : List ℚ) : Option ℚ :=
  let s := sortedQ xs
  let n := s.length
  if n = 0 then none
  else if n % 2 = 1 then some (s.getD (n / 2) 0)
  else some ((s.getD (n / 2 - 1) 0 + s.getD (n / 2) 0) / 2)

/-- Sample variance with the pandas default `ddof=1`: squared deviations from
the mean divided by `N - 1`; `NaN` when fewer than two entries exist. -/
def varStat (xs : List ℚ) : Option ℚ :=
  if xs.length ≤ 1 then none
  else
    let m := xs.sum / (xs.length : ℚ)
    some ((xs.map (fun x => (x - m) ^ 2)).sum / ((xs.length : ℚ) - 1))

/-- Sample standard deviation (pandas `std`, `ddof=1`): the square root of the
sample variance.  The square root lives in `ℝ`, hence this is the one
non-executable statistic. -/
noncomputable def stdStat (xs : List ℚ) : Option ℝ :=
  (varStat xs).map (fun v => Real.sqrt (v : ℝ))

/-- Minimum of the non-missing entries (pandas `min`). -/
def minStat (xs : List ℚ) : Option ℚ :=
  match xs with
  | [] => none
  | x :: t => some (t.foldl min x)

/-- Maximum of the non-missing entries (pandas `max`). -/
def maxStat (xs : List ℚ) : Option ℚ :=
  match xs with
  | [] => none
  | x :: t => some (t.foldl max x)

/-- The transposed statistics table `describe` builds: one row per statistic,
one column per numeric input column; entries are reals so the `std` row can
hold square roots, with `none` standing for `NaN`. -/
structure StatsTable where
  cols : List String
  rows : List (String × List (Option ℝ))

/-- The statistics table over the numeric columns of `base`: the body of
`stats.describe` after column restriction. -/
noncomputable def describeT (base : DF) : StatsTable :=
  let ncols := base.numericCols
  let colData := ncols.map (fun c => numsOf (base.col c))
  { cols := ncols
    rows := [ ("count", colData.map (fun xs => some ((countStat xs : ℚ) : ℝ)))
            , ("mean", colData.map (fun xs => (meanStat xs).map (fun q => (q : ℝ))))
            , ("median", colData.map (fun xs => (medianStat xs).map (fun q => (q : ℝ))))
            , ("std", colData.map (fun xs => stdStat xs))
            , ("min", colData.map (fun xs => (minStat xs).map (fun q => (q : ℝ))))
            , ("max", colData.map (fun xs => (maxStat xs).map (fun q => (q : ℝ)))) ] }

/-- Embedding of `stats.describe`: when `incl` is given, every requested
column must exist (pandas raises `KeyError` otherwise) and the table is
restricted to it first; then the statistics are computed per numeric column. -/
noncomputable def describe (df : DF) (incl : Option (List String)) :
    Except StatsError StatsTable :=
  match incl with
  | none => .ok (describeT df)
  | some cs =>
    if cs.all (fun c => decide (c ∈ df.cols)) then .ok (describeT (df.restrict cs))
    else .error .columnNotFound

/-- Entry of statistic row `j` (0 = count, ..., 5 = max) at column position
`i` of a statistics table. -/
def statEntry (S : StatsTable) (j i : Nat) : Option ℝ :=
  (S.rows.getD j ("", [])).2.getD i none

/-- The mutable state of `SurveyREPL`: the loaded dataset's name and table,
both absent before any successful `load`. -/
structure Session where
  current_dataset : Option String
  current_df : Option DF
deriving DecidableEq, Repr

/-- What a REPL command prints, abstracted: the `NoDatasetLoaded` message, a
row listing, dataset information, the column listing, a statistics table, the
preview of a filter or query candidate, a completed save, or an error text. -/
inductive ReplMsg where
  | noDatasetLoaded
  | shows (rows : List (Nat × List Value))
  | infoShown (name : Option String) (nrows ncols : Nat)
  | colsShown (cols : List String)
  | statsShown (t : StatsTable)
  | previewed (df : DF)
  | saved (df : DF)
  | errShown

/-- Outcome of one REPL command: the state afterwards, what was printed, and
whether the loop stops (`cmd.Cmd` stops only when a handler returns true). -/
structure CmdResult where
  session : Session
  msg : ReplMsg
  halt : Bool

/-- Lowercasing as Python `str.lower()` applies it, character by character. -/
def lowerStr (s : String) : String := ⟨s.data.map Char.toLower⟩

/-- Test the REPL applies to the replace-confirmation answer:
`response.lower() in [y, yes]`. -/
def affirmative (response : String) : Bool :=
  lowerStr response = "y" || lowerStr response = "yes"

/-- Embedding of `SurveyREPL.do_head`: without a dataset it prints the
`NoDatasetLoaded` message and keeps the state; otherwise it shows the first
`n` rows (integer parsing of the argument is external to the core). -/
def do_head (s : Session) (n : Nat) : CmdResult :=
  match s.current_df with
  | none => ⟨s, .noDatasetLoaded, false⟩
  | some df => ⟨s, .shows (df.rows.take n), false⟩

/-- Embedding of `SurveyREPL.do_tail`: as `do_head`, showing the last `n`
rows. -/
def do_tail (s : Session) (n : Nat) : CmdResult :=
  match s.current_df with
  | none => ⟨s, .noDatasetLoaded, false⟩
  | some df => ⟨s, .shows (df.rows.drop (df.rows.length - n)), false⟩

/-- Embedding of `SurveyREPL.do_columns`. -/
def do_columns (s : Session) : CmdResult :=
  match s.current_df with
  | none => ⟨s, .noDatasetLoaded, false⟩
  | some df => ⟨s, .colsShown df.cols, false⟩

/-- Embedding of `SurveyREPL.do_info`. -/
def do_info (s : Session) : CmdResult :=
  match s.current_df with
  | none => ⟨s, .noDatasetLoaded, false⟩
  | some df => ⟨s, .infoShown s.current_dataset df.rows.length df.cols.length, false⟩

/-- Embedding of `SurveyREPL.do_describe`: delegates to `describe` and prints
either the statistics or the caught error. -/
noncomputable def do_describe (s : Session) (columns : Option (List String)) : CmdResult :=
  match s.current_df with
  | none => ⟨s, .noDatasetLoaded, false⟩
  | some df =>
    match describe df columns with
    | .ok t => ⟨s, .statsShown t, false⟩
    | .error _ => ⟨s, .errShown, false⟩

/-- Embedding of `SurveyREPL.do_save`: requires a dataset and a non-empty
filename; writing itself is an external collaborator. -/
def do_save (s : Session) (filename : String) : CmdResult :=
  match s.current_df with
  | none => ⟨s, .noDatasetLoaded, false⟩
  | some df => if (strip filename).length = 0 then ⟨s, .errShown, false⟩
               else ⟨s, .saved df, false⟩

/-- Embedding of `SurveyREPL.do_filter`: requires a dataset, a column and at
least one value; computes the candidate with `filter_by_column` (REPL values
are the tokenized strings) and adopts it as the current table only when the
confirmation answer is affirmative. -/
def do_filter (s : Session) (column : String) (values : List String)
    (response : String) : CmdResult :=
  match s.current_df with
  | none => ⟨s, .noDatasetLoaded, false⟩
  | some df =>
    if values = [] then ⟨s, .errShown, false⟩
    else if column ∉ df.cols then ⟨s, .errShown, false⟩
    else
      match filter_by_column df column (values.map Value.str) with
      | .error _ => ⟨s, .errShown, false⟩
      | .ok fdf =>
        if affirmative response then
          ⟨{ s with current_df := some fdf }, .previewed fdf, false⟩
        else ⟨s, .previewed fdf, false⟩

/-- Embedding of `SurveyREPL.do_query`: `DataFrame.query` keeps the rows
satisfying the parsed boolean expression (modelled as a row predicate,
expression parsing being external) with their original indices; the result
replaces the current table only on an affirmative confirmation answer. -/
def do_query (s : Session) (pred : Nat × List Value → Bool)
    (response : String) : CmdResult :=
  match s.current_df with
  | none => ⟨s, .noDatasetLoaded, false⟩
  | some df =>
    let result : DF := { cols := df.cols, rows := df.rows.filter pred }
    if affirmative response then
      ⟨{ s with current_df := some result }, .previewed result, false⟩
    else ⟨s, .previewed result, false⟩

/-- Example table of `subset.filter_by_column`'s docstring, one row kept. -/
def exDF1 : DF :=
  { cols := ["country", "age"], rows := [(0, [.str "USA", .num 25])] }

/-- Example table of the spec's multi-valued distribution test and of
`tests/test_survey.py`. -/
def exDF2 : DF :=
  { cols := ["Q1", "Q2"]
    rows := [ (0, [.str "A", .str "Yes"]), (1, [.str "B", .str "No"])
            , (2, [.str "A", .str "Yes"]), (3, [.str "C", .str "No"])
            , (4, [.str "A;B", .str "Yes"]), (5, [.str "B;C", .str "No"]) ] }

/-- Example table of `stats.describe`'s docstring: two numeric columns and one
text column. -/
def exDF3 : DF :=
  { cols := ["age", "years_coding", "country"]
    rows := [ (0, [.num 25, .num 1, .str "USA"]), (1, [.num 30, .num 5, .str "UK"])
            , (2, [.num 35, .num 10, .str "USA"]), (3, [.num 40, .num 15, .str "UK"])
            , (4, [.num 45, .num 20, .str "USA"]) ] }

/-- Example table whose only column is textual, for the range-filter type
error. -/
def exDF4 : DF :=
  { cols := ["country"], rows := [(0, [.str "USA"]), (1, [.str "UK"])] }

/-- Example table whose single column is entirely missing. -/
def exDF5 : DF :=
  { cols := ["Q1"], rows := [(0, [.missing]), (1, [.missing])] }

/-- Following the spec's words, not the source: `filterBySet` keeps the rows
whose value in `column`, rendered to a string, equals some element of
`values`, so that a numeric cell `25` matches the text `"25"`.  Stated only to
compare against `filter_by_column`, which uses typed `isin` matching. -/
def filterBySetSpec (df : DF) (column : String) (values : List String) :
    Except SubsetError DF :=
  if column ∉ df.cols then .error .columnNotFound
  else if values = [] then .error .emptyCriteria
  else .ok { cols := df.cols
             rows := df.rows.filter
               (fun r => decide ((df.cell column r).render ∈ values)) }

/-- Ordering of a sorted count list: a strictly larger count comes first, and
equal counts are ordered by the tie-break relation `Q`. -/
def DescWith (Q : α × Nat → α × Nat → Prop) (a b : α × Nat) : Prop :=
  b.2 < a.2 ∨ (a.2 = b.2 ∧ Q a b)

/-- Example session with a loaded dataset. -/
def exSession : Session := { current_dataset := some "survey", current_df := some exDF1 }

/-- Example session before any load. -/
def exSessionEmpty : Session := { current_dataset := none, current_df := none }

/-- Claim C1 counterexample: the claim says a numeric cell `25` matches the
text value `"25"` because matching happens on rendered strings.  On the
docstring's own table, filtering the numeric `age` column by the text `"25"`
keeps no row at all, although the cell renders to exactly that text (the
spec-following `filterBySetSpec` would keep the row): `isin` compares typed
values. -/
theorem filter_by_column_rendered_mismatch :
    (exDF1.cell "age" (0, [.str "USA", .num 25])).render = "25" ∧
    filter_by_column exDF1 "age" [.str "25"] =
      .ok { cols := ["country", "age"], rows := [] } ∧
    filterBySetSpec exDF1 "age" ["25"] = .ok exDF1 :=
  ⟨by decide, by rfl, by rfl⟩

/-- Claim C1 (amended): for every table, column present in it and non-empty
value list, `filter_by_column` returns exactly the rows whose cell in the
column equals (typed equality, as pandas `isin` compares — a numeric `25` does
not match the text `"25"`) some element of the list, with row order and
original row indices preserved (the kept rows are a sublist of the originals,
each still carrying its index). -/
theorem filter_by_column_filters_typed (df : DF) (column : String)
    (values : List Value) (hc : column ∈ df.cols) (hv : values ≠ []) :
    filter_by_column df column values =
      .ok { cols := df.cols
            rows := df.rows.filter (fun r => decide (df.cell column r ∈ values)) } ∧
    (df.rows.filter (fun r => decide (df.cell column r ∈ values))).Sublist df.rows ∧
    ∀ r, r ∈ df.rows.filter (fun r => decide (df.cell column r ∈ values)) ↔
      r ∈ df.rows ∧ df.cell column r ∈ values := by
  refine ⟨?_, List.filter_sublist _, ?_⟩
  · simp [filter_by_column, hc, hv]
  · intro r; simp [List.mem_filter]

/-- Claim C1 witness: the amended theorem applied to the docstring table,
filtering `age` by the typed numeric value `25`. -/
theorem filter_by_column_filters_typed_witness :
    ("age" ∈ exDF1.cols ∧ ([Value.num 25] : List Value) ≠ []) ∧
    (filter_by_column exDF1 "age" [Value.num 25] =
      .ok { cols := exDF1.cols
            rows := exDF1.rows.filter
              (fun r => decide (exDF1.cell "age" r ∈ [Value.num 25])) } ∧
     (exDF1.rows.filter
        (fun r => decide (exDF1.cell "age" r ∈ [Value.num 25]))).Sublist exDF1.rows ∧
     ∀ r, r ∈ exDF1.rows.filter
        (fun r => decide (exDF1.cell "age" r ∈ [Value.num 25])) ↔
        r ∈ exDF1.rows ∧ exDF1.cell "age" r ∈ [Value.num 25]) :=
  ⟨⟨by decide, by decide⟩,
   filter_by_column_filters_typed exDF1 "age" [Value.num 25] (by decide) (by decide)⟩

/-- Propagation of an error raised on the first element of an elementwise
comparison. -/
theorem filterExc_head_error {p : α → Except SubsetError Bool} {x : α}
    {t : List α} {e : SubsetError} (h : p x = .error e) :
    filterExc p (x :: t) = .error e := by
  simp only [filterExc, h]
  rfl

/-- Claim C3: for every table and a column of non-orderable type relative to
the (numeric) bounds — here, a column all of whose cells are text, compared
against numeric bounds, which pandas refuses with `TypeError` — a range filter
with at least one bound present and at least one row fails with
`TypeMismatch` instead of returning a table. -/
theorem filter_by_value_range_unorderable (df : DF) (column : String)
    (lo hi : Option Value)
    (hc : column ∈ df.cols)
    (hstr : ∀ r ∈ df.rows, (df.cell column r).isStr = true)
    (hne : df.rows ≠ [])
    (hlo : ∀ v, lo = some v → ∃ q, v = Value.num q)
    (hhi : ∀ v, hi = some v → ∃ q, v = Value.num q)
    (hbound : lo ≠ none ∨ hi ≠ none) :
    filter_by_value_range df column lo hi = .error .typeMismatch := by
  obtain ⟨r0, t, hrt⟩ := List.exists_cons_of_ne_nil hne
  have hr0 := hstr r0 (by rw [hrt]; exact List.mem_cons_self r0 t)
  obtain ⟨s0, hs0⟩ : ∃ s, df.cell column r0 = Value.str s := by
    cases hcv : df.cell column r0 with
    | str s => exact ⟨s, rfl⟩
    | num q => rw [hcv] at hr0; simp [Value.isStr] at hr0
    | missing => rw [hcv] at hr0; simp [Value.isStr] at hr0
  cases hl : lo with
  | some v =>
    obtain ⟨q, hq⟩ := hlo v hl
    have herr : filterExc (fun r => cmpGE (df.cell column r) v) df.rows =
        .error .typeMismatch := by
      rw [hrt]
      exact filterExc_head_error (by rw [hs0, hq]; rfl)
    simp only [filter_by_value_range, hc, herr]
    rfl
  | none =>
    have hhne : hi ≠ none := by
      rcases hbound with h | h
      · exact absurd hl h
      · exact h
    obtain ⟨v, hv⟩ := Option.ne_none_iff_exists.mp hhne
    obtain ⟨q, hq⟩ := hhi v hv.symm
    have herr : filterExc (fun r => cmpLE (df.cell column r) v) df.rows =
        .error .typeMismatch := by
      rw [hrt]
      exact filterExc_head_error (by rw [hs0, hq]; rfl)
    simp only [filter_by_value_range, hc, ← hv, herr]
    rfl

/-- Claim C3 witness: the theorem applied to a text column with a numeric
lower bound. -/
theorem filter_by_value_range_unorderable_witness :
    ("country" ∈ exDF4.cols ∧ exDF4.rows ≠ [] ∧
      (∀ r ∈ exDF4.rows, (exDF4.cell "country" r).isStr = true)) ∧
    filter_by_value_range exDF4 "country" (some (.num 30)) none =
      .error .typeMismatch :=
  ⟨⟨by decide, by decide, by decide⟩,
   filter_by_value_range_unorderable exDF4 "country" (some (.num 30)) none
     (by decide) (by decide) (by decide)
     (fun v hv => ⟨30, by injection hv with h; exact h.symm⟩)
     (fun v hv => by cases hv) (Or.inl (by decide))⟩

/-- Claim C6: for every table and explicit column list containing at least one
name absent from the table, `describe` fails with `ColumnNotFound` before
computing any statistic; the unknown column is never silently dropped. -/
theorem describe_unknown_column (df : DF) (incl : List String)
    (h : ∃ c ∈ incl, c ∉ df.cols) :
    describe df (some incl) = .error .columnNotFound := by
  obtain ⟨c, hc, hnc⟩ := h
  have hall : incl.all (fun c => decide (c ∈ df.cols)) = false := by
    rw [List.all_eq_false]
    exact ⟨c, hc, by simpa using hnc⟩
  simp [describe, hall]

/-- Claim C6 witness: requesting the docstring table's `age` together with a
nonexistent `salary` column. -/
theorem describe_unknown_column_witness :
    (∃ c ∈ ["age", "salary"], c ∉ exDF3.cols) ∧
    describe exDF3 (some ["age", "salary"]) = .error .columnNotFound :=
  ⟨⟨"salary", by decide, by decide⟩,
   describe_unknown_column exDF3 ["age", "salary"] ⟨"salary", by decide, by decide⟩⟩

/-- Claim C7: for every table and absent column, `answer_distribution` (in
both modes) returns the empty mapping without raising, while the hard-failing
operations — `filter_by_column`, `filter_by_value_range` and `describe` with
an explicit column list — report `ColumnNotFound` on the same column. -/
theorem answer_distribution_absent_column (df : DF) (question : String)
    (multi : Bool) (values : List Value) (lo hi : Option Value)
    (h : question ∉ df.cols) :
    answer_distribution df question multi = [] ∧
    filter_by_column df question values = .error .columnNotFound ∧
    filter_by_value_range df question lo hi = .error .columnNotFound ∧
    describe df (some [question]) = .error .columnNotFound := by
  refine ⟨?_, ?_, ?_, ?_⟩
  · simp [answer_distribution, h]
  · simp [filter_by_column, h]
  · simp [filter_by_value_range, h]
  · simp [describe, h]

/-- Claim C7 witness: the distribution of a column that exists in no table. -/
theorem answer_distribution_absent_column_witness :
    ("Salary" ∉ exDF2.cols) ∧
    answer_distribution exDF2 "Salary" true = [] ∧
    filter_by_column exDF2 "Salary" [.str "A"] = .error .columnNotFound ∧
    filter_by_value_range exDF2 "Salary" (some (.num 1)) none =
      .error .columnNotFound ∧
    describe exDF2 (some ["Salary"]) = .error .columnNotFound :=
  ⟨by decide,
   answer_distribution_absent_column exDF2 "Salary" true [.str "A"]
     (some (.num 1)) none (by decide)⟩

/-- Claim C8: in a session with a loaded table, a `filter` or `query` whose
replace-confirmation is declined (any answer whose lowercasing is neither `y`
nor `yes`) leaves the whole session state — in particular the current table —
exactly as it was; only an affirmative answer replaces it. -/
theorem decline_keeps_current_table (s : Session) (df : DF)
    (column : String) (values : List String) (pred : Nat × List Value → Bool)
    (response : String)
    (hdf : s.current_df = some df)
    (hresp : affirmative response = false) :
    (do_filter s column values response).session = s ∧
    (do_query s pred response).session = s := by
  constructor
  · by_cases h1 : values = []
    · simp [do_filter, hdf, h1]
    · by_cases h2 : column ∈ df.cols
      · cases hf : filter_by_column df column (values.map Value.str) with
        | error e => simp [do_filter, hdf, h1, h2, hf]
        | ok fdf => simp [do_filter, hdf, h1, h2, hf, hresp]
      · simp [do_filter, hdf, h1, h2]
  · simp [do_query, hdf, hresp]

/-- Claim C8 witness: declining with the answer `n` after filtering the
loaded example table. -/
theorem decline_keeps_current_table_witness :
    (exSession.current_df = some exDF1 ∧ affirmative "n" = false) ∧
    (do_filter exSession "country" ["USA"] "n").session = exSession ∧
    (do_query exSession (fun r => decide (r.1 = 0)) "n").session = exSession :=
  ⟨⟨by decide, by decide⟩,
   decline_keeps_current_table exSession exDF1 "country" ["USA"]
     (fun r => decide (r.1 = 0)) "n" (by decide) (by decide)⟩

/-- Claim C9: in a session without a loaded dataset, every dataset-scoped
command — `head`, `tail`, `columns`, `describe`, `filter`, `query`, `save`,
`info` — prints the `NoDatasetLoaded` message, leaves the session state
unchanged, and does not halt the command loop. -/
theorem no_dataset_commands_fail (s : Session) (n m : Nat) (filename : String)
    (column : String) (values : List String) (pred : Nat × List Value → Bool)
    (response : String) (columns : Option (List String))
    (h : s.current_df = none) :
    do_head s n = ⟨s, .noDatasetLoaded, false⟩ ∧
    do_tail s m = ⟨s, .noDatasetLoaded, false⟩ ∧
    do_columns s = ⟨s, .noDatasetLoaded, false⟩ ∧
    do_describe s columns = ⟨s, .noDatasetLoaded, false⟩ ∧
    do_filter s column values response = ⟨s, .noDatasetLoaded, false⟩ ∧
    do_query s pred response = ⟨s, .noDatasetLoaded, false⟩ ∧
    do_save s filename = ⟨s, .noDatasetLoaded, false⟩ ∧
    do_info s = ⟨s, .noDatasetLoaded, false⟩ := by
  refine ⟨?_, ?_, ?_, ?_, ?_, ?_, ?_, ?_⟩ <;>
    simp [do_head, do_tail, do_columns, do_describe, do_filter, do_query,
          do_save, do_info, h]

/-- Claim C9 witness: the pristine session, with each command at concrete
arguments. -/
theorem no_dataset_commands_fail_witness :
    (exSessionEmpty.current_df = none) ∧
    do_head exSessionEmpty 5 = ⟨exSessionEmpty, .noDatasetLoaded, false⟩ ∧
    do_tail exSessionEmpty 5 = ⟨exSessionEmpty, .noDatasetLoaded, false⟩ ∧
    do_columns exSessionEmpty = ⟨exSessionEmpty, .noDatasetLoaded, false⟩ ∧
    do_describe exSessionEmpty none = ⟨exSessionEmpty, .noDatasetLoaded, false⟩ ∧
    do_filter exSessionEmpty "c" ["v"] "y" = ⟨exSessionEmpty, .noDatasetLoaded, false⟩ ∧
    do_query exSessionEmpty (fun _ => true) "y" = ⟨exSessionEmpty, .noDatasetLoaded, false⟩ ∧
    do_save exSessionEmpty "out.csv" = ⟨exSessionEmpty, .noDatasetLoaded, false⟩ ∧
    do_info exSessionEmpty = ⟨exSessionEmpty, .noDatasetLoaded, false⟩ :=
  ⟨by decide,
   no_dataset_commands_fail exSessionEmpty 5 5 "out.csv" "c" ["v"]
     (fun _ => true) "y" none (by decide)⟩

/-- Claim C10: for every table whose rows are empty, or whose cells in the
requested column are all missing, the distribution computation in either mode
returns the empty mapping — no share, hence no division, is ever computed. -/
theorem distribution_empty_on_all_missing (df : DF) (question : String)
    (multi : Bool)
    (h : df.rows = [] ∨ ∀ r ∈ df.rows, df.cell question r = .missing) :
    answer_distribution df question multi = [] := by
  by_cases hq : question ∈ df.cols
  · have hcol : nonMissing (df.col question) = [] := by
      cases h with
      | inl h0 => simp [nonMissing, DF.col, h0]
      | inr hall =>
        rw [nonMissing, List.filter_eq_nil_iff]
        intro a ha
        obtain ⟨r, hr, hra⟩ := List.mem_map.mp ha
        simp [← hra, hall r hr]
    have hstream : ∀ b, tokenStream df question b = [] := by
      intro b
      cases b <;> simp [tokenStream, hcol]
    cases multi <;>
      simp [answer_distribution, hq, answerCounts, value_counts, countPairs,
            firstOccs, sortDesc, hstream]
  · simp [answer_distribution, hq]

/-- Claim C10 witness: a column whose two cells are both missing, and the
zero-row table, in both modes. -/
theorem distribution_empty_on_all_missing_witness :
    (∀ r ∈ exDF5.rows, exDF5.cell "Q1" r = .missing) ∧
    answer_distribution exDF5 "Q1" true = [] ∧
    answer_distribution exDF5 "Q1" false = [] ∧
    answer_distribution { cols := ["Q1"], rows := [] } "Q1" true = [] :=
  ⟨by decide,
   distribution_empty_on_all_missing exDF5 "Q1" true (Or.inr (by decide)),
   distribution_empty_on_all_missing exDF5 "Q1" false (Or.inr (by decide)),
   distribution_empty_on_all_missing { cols := ["Q1"], rows := [] } "Q1" true
     (Or.inl (by decide))⟩

/-- Membership in `firstOccs` is membership in the underlying list. -/
theorem mem_firstOccs [DecidableEq α] {a : α} {l : List α} :
    a ∈ firstOccs l ↔ a ∈ l := by
  induction l with
  | nil => simp [firstOccs]
  | cons x t ih =>
    by_cases hax : a = x
    · subst hax; simp [firstOccs]
    · simp [firstOccs, List.mem_filter, ih, hax]

/-- The elements of `firstOccs` occur in order of first occurrence: the index
of an earlier element in the underlying list is strictly smaller. -/
theorem firstOccs_pairwise_indexOf [DecidableEq α] (l : List α) :
    (firstOccs l).Pairwise (fun a b => l.indexOf a < l.indexOf b) := by
  induction l with
  | nil => simp [firstOccs]
  | cons x t ih =>
    rw [firstOccs]
    refine List.Pairwise.cons ?_ ?_
    · intro b hb
      have hbne : b ≠ x := by simpa using (List.of_mem_filter hb)
      rw [List.indexOf_cons_self, List.indexOf_cons_ne t (fun h => hbne h.symm)]
      exact Nat.succ_pos _
    · have hp : ((firstOccs t).filter (fun b => decide (b ≠ x))).Pairwise
          (fun a b => t.indexOf a < t.indexOf b) :=
        ih.sublist (List.filter_sublist _)
      refine hp.imp_of_mem ?_
      intro a b ha hb hab
      have hane : a ≠ x := by simpa using (List.of_mem_filter ha)
      have hbne : b ≠ x := by simpa using (List.of_mem_filter hb)
      rw [List.indexOf_cons_ne t (fun h => hane h.symm),
          List.indexOf_cons_ne t (fun h => hbne h.symm)]
      exact Nat.succ_lt_succ hab

/-- Membership in `countPairs`: exactly the pairs of an element of the list
with its multiplicity. -/
theorem mem_countPairs [DecidableEq α] {p : α × Nat} {l : List α} :
    p ∈ countPairs l ↔ p.1 ∈ l ∧ p.2 = l.count p.1 := by
  constructor
  · intro hp
    obtain ⟨a, ha, hap⟩ := List.mem_map.mp hp
    rw [← hap]
    exact ⟨mem_firstOccs.mp ha, rfl⟩
  · rintro ⟨h1, h2⟩
    refine List.mem_map.mpr ⟨p.1, mem_firstOccs.mpr h1, ?_⟩
    exact Prod.ext rfl h2.symm

/-- Inserting into a count list permutes consing. -/
theorem insertDesc_perm (x : α × Nat) (l : List (α × Nat)) :
    (insertDesc x l).Perm (x :: l) := by
  induction l with
  | nil => exact List.Perm.refl _
  | cons y t ih =>
    rw [insertDesc]
    by_cases h : x.2 < y.2
    · rw [if_pos h]
      exact ((ih.cons y).trans (List.Perm.swap x y t))
    · rw [if_neg h]

/-- The stable descending sort permutes its input. -/
theorem sortDesc_perm (l : List (α × Nat)) : (sortDesc l).Perm l := by
  induction l with
  | nil => exact List.Perm.refl _
  | cons x t ih => exact (insertDesc_perm x (sortDesc t)).trans (ih.cons x)

/-- Membership in `value_counts`: exactly the element-multiplicity pairs. -/
theorem mem_value_counts [DecidableEq α] {p : α × Nat} {l : List α} :
    p ∈ value_counts l ↔ p.1 ∈ l ∧ p.2 = l.count p.1 := by
  rw [value_counts, (sortDesc_perm _).mem_iff, mem_countPairs]

/-- Inserting an element that the tie-break relation `Q` places before the
whole list keeps the list ordered by `DescWith Q`. -/
theorem insertDesc_pairwise {Q : α × Nat → α × Nat → Prop} {x : α × Nat}
    {l : List (α × Nat)} (hl : l.Pairwise (DescWith Q)) (hx : ∀ y ∈ l, Q x y) :
    (insertDesc x l).Pairwise (DescWith Q) := by
  induction l with
  | nil => simp [insertDesc, List.Pairwise.nil]
  | cons y t ih =>
    obtain ⟨hy, ht⟩ := List.pairwise_cons.mp hl
    rw [insertDesc]
    by_cases h : x.2 < y.2
    · rw [if_pos h]
      refine List.Pairwise.cons ?_ (ih ht (fun z hz => hx z (List.mem_cons_of_mem y hz)))
      intro z hz
      rcases List.mem_cons.mp ((insertDesc_perm x t).mem_iff.mp hz) with hzx | hzt
      · rw [hzx]; exact Or.inl h
      · exact hy z hzt
    · rw [if_neg h]
      refine List.Pairwise.cons ?_ hl
      intro z hz
      rcases List.mem_cons.mp hz with hzy | hzt
      · subst hzy
        rcases Nat.lt_or_ge z.2 x.2 with hlt | hge
        · exact Or.inl hlt
        · exact Or.inr ⟨Nat.le_antisymm hge (Nat.le_of_not_lt h),
            hx z (List.mem_cons_self z t)⟩
      · rcases Nat.lt_or_ge z.2 x.2 with hlt | hge
        · exact Or.inl hlt
        · refine Or.inr ⟨?_, hx z (List.mem_cons_of_mem y hzt)⟩
          have hzy : z.2 ≤ y.2 := by
            rcases hy z hzt with h1 | h1
            · exact Nat.le_of_lt h1
            · exact Nat.le_of_eq h1.1.symm
          exact Nat.le_antisymm hge (le_trans hzy (Nat.le_of_not_lt h))

/-- The stable descending sort of a list ordered by a tie-break relation `Q`
is ordered by `DescWith Q`: counts descend, and ties keep the `Q`-order. -/
theorem sortDesc_pairwise {Q : α × Nat → α × Nat → Prop} {l : List (α × Nat)}
    (hl : l.Pairwise Q) : (sortDesc l).Pairwise (DescWith Q) := by
  induction l with
  | nil => simp [sortDesc, List.Pairwise.nil]
  | cons x t ih =>
    obtain ⟨hx, ht⟩ := List.pairwise_cons.mp hl
    exact insertDesc_pairwise (ih ht)
      (fun y hy => hx y ((sortDesc_perm t).subset hy))

/-- The pairs of `value_counts` descend by multiplicity, ties ordered by
first occurrence in the underlying list. -/
theorem value_counts_pairwise [DecidableEq α] (l : List α) :
    (value_counts l).Pairwise
      (DescWith (fun p q => l.indexOf p.1 < l.indexOf q.1)) := by
  refine sortDesc_pairwise ?_
  rw [countPairs]
  exact List.pairwise_map.mpr (firstOccs_pairwise_indexOf l)

/-- Shape of the distribution over a present column: each counted pair mapped
to its share of the total. -/
theorem answer_distribution_eq_map (df : DF) (question : String) (multi : Bool)
    (hq : question ∈ df.cols) :
    answer_distribution df question multi =
      (answerCounts df question multi).map
        (fun p => (p.1, (p.2 : ℚ) /
          ((if multi then (tokenStream df question multi).length
            else ((answerCounts df question multi).map (fun p => p.2)).sum : Nat) : ℚ))) := by
  rw [answer_distribution, if_neg (by simpa using hq)]

/-- Shape of the multi-valued distribution over a present column: the total is
the length of the emitted token stream. -/
theorem answer_distribution_eq_map_multi (df : DF) (question : String)
    (hq : question ∈ df.cols) :
    answer_distribution df question true =
      (answerCounts df question true).map
        (fun p => (p.1, (p.2 : ℚ) / ((tokenStream df question true).length : ℚ))) := by
  rw [answer_distribution, if_neg (by simpa using hq)]
  rfl

/-- Claim C2: in multi-valued mode the distribution of a present column maps
a token to a share exactly when the token occurs in the stream obtained by
rendering each non-missing cell, splitting on `;` and stripping whitespace
(that stream is `tokenStream`), and the share is the token's multiplicity in
that stream divided by the total number of emitted tokens; on the spec's
six-row example this yields shares 3/8, 3/8 and 1/4. -/
theorem answer_distribution_multi :
    (∀ (df : DF) (question : String), question ∈ df.cols →
      ∀ (v : Value) (s : ℚ),
        ((v, s) ∈ answer_distribution df question true ↔
          v ∈ tokenStream df question true ∧
          s = ((tokenStream df question true).count v : ℚ) /
              ((tokenStream df question true).length : ℚ))) ∧
    answer_distribution exDF2 "Q1" true =
      [(.str "A", 3/8), (.str "B", 3/8), (.str "C", 1/4)] := by
  constructor
  · intro df question hq v s
    rw [answer_distribution_eq_map_multi df question hq]
    constructor
    · intro h
      obtain ⟨p, hp, hps⟩ := List.mem_map.mp h
      obtain ⟨hp1, hp2⟩ := mem_value_counts.mp hp
      obtain ⟨h1, h2⟩ := Prod.mk.injEq _ _ _ _ ▸ hps
      refine ⟨h1 ▸ hp1, ?_⟩
      rw [← h2, hp2, h1]
    · rintro ⟨hv, hs⟩
      refine List.mem_map.mpr
        ⟨(v, (tokenStream df question true).count v), mem_value_counts.mpr ⟨hv, rfl⟩, ?_⟩
      rw [hs]
  · have hcounts : answerCounts exDF2 "Q1" true =
        [(.str "A", 3), (.str "B", 3), (.str "C", 2)] := by decide
    have hlen : (tokenStream exDF2 "Q1" true).length = 8 := by decide
    rw [answer_distribution_eq_map_multi exDF2 "Q1" (by decide), hcounts]
    simp only [hlen, List.map_cons, List.map_nil]
    norm_num

/-- Claim C2 witness: the multi-valued characterization applied to the
example table's token `A`. -/
theorem answer_distribution_multi_witness :
    ("Q1" ∈ exDF2.cols) ∧
    ((Value.str "A", (3 : ℚ)/8) ∈ answer_distribution exDF2 "Q1" true ↔
      Value.str "A" ∈ tokenStream exDF2 "Q1" true ∧
      (3 : ℚ)/8 = ((tokenStream exDF2 "Q1" true).count (Value.str "A") : ℚ) /
        ((tokenStream exDF2 "Q1" true).length : ℚ)) :=
  ⟨by decide,
   answer_distribution_multi.1 exDF2 "Q1" (by decide) (Value.str "A") ((3 : ℚ)/8)⟩

/-- Claim C4: in both modes the counted pairs underlying the returned mapping
descend by token frequency with ties in first-encountered order (index in the
observation stream), the returned mapping carries the same keys in the same
order when the column exists, and its shares are nonincreasing. -/
theorem answer_distribution_ordered (df : DF) (question : String) (multi : Bool) :
    (answerCounts df question multi).Pairwise
      (DescWith (fun p q => (tokenStream df question multi).indexOf p.1 <
                            (tokenStream df question multi).indexOf q.1)) ∧
    (question ∈ df.cols →
      (answer_distribution df question multi).map Prod.fst =
        (answerCounts df question multi).map Prod.fst) ∧
    (answer_distribution df question multi).Pairwise (fun a b => b.2 ≤ a.2) := by
  refine ⟨value_counts_pairwise _, ?_, ?_⟩
  · intro hq
    rw [answer_distribution_eq_map df question multi hq, List.map_map]
    rfl
  · by_cases hq : question ∈ df.cols
    · rw [answer_distribution_eq_map df question multi hq]
      refine List.pairwise_map.mpr ?_
      refine (value_counts_pairwise _).imp_of_mem ?_
      intro a b _ _ hab
      have hcnt : b.2 ≤ a.2 := by
        rcases hab with h | h
        · exact Nat.le_of_lt h
        · exact Nat.le_of_eq h.1.symm
      rcases Nat.eq_zero_or_pos
          (if multi then (tokenStream df question multi).length
           else ((answerCounts df question multi).map (fun p => p.2)).sum) with h0 | hpos
      · simp [h0]
      · have : (0 : ℚ) <
            ((if multi then (tokenStream df question multi).length
              else ((answerCounts df question multi).map (fun p => p.2)).sum : Nat) : ℚ) := by
          exact_mod_cast hpos
        exact (div_le_div_iff_of_pos_right this).mpr (by exact_mod_cast hcnt)
    · simp [answer_distribution, hq]

/-- Claim C4 witness: the key-order link applied to the example table. -/
theorem answer_distribution_ordered_witness :
    ("Q1" ∈ exDF2.cols) ∧
    (answer_distribution exDF2 "Q1" true).map Prod.fst =
      (answerCounts exDF2 "Q1" true).map Prod.fst :=
  ⟨by decide, (answer_distribution_ordered exDF2 "Q1" true).2.1 (by decide)⟩

/-- Reading a mapped list at a valid index applies the function to the
underlying entry, whatever defaults are supplied. -/
theorem getD_map_lt (f : α → β) {l : List α} {i : Nat} (h : i < l.length)
    (d : β) (d0 : α) : (l.map f).getD i d = f (l.getD i d0) := by
  rw [List.getD_eq_getElem _ _ (by simpa using h), List.getD_eq_getElem _ _ h,
      List.getElem_map]

/-- The left fold of `min` lands on one of the folded elements. -/
theorem foldl_min_mem [LinearOrder α] (t : List α) :
    ∀ x : α, t.foldl min x ∈ x :: t := by
  induction t with
  | nil => intro x; simp
  | cons z t ih =>
    intro x
    rw [List.foldl_cons]
    rcases List.mem_cons.mp (ih (min x z)) with h1 | h1
    · rw [h1]
      rcases min_choice x z with hm | hm <;> rw [hm]
      · exact List.mem_cons_self _ _
      · exact List.mem_cons_of_mem _ (List.mem_cons_self _ _)
    · exact List.mem_cons_of_mem _ (List.mem_cons_of_mem _ h1)

/-- The left fold of `min` bounds every folded element from below. -/
theorem foldl_min_le [LinearOrder α] (t : List α) :
    ∀ x : α, ∀ y ∈ x :: t, t.foldl min x ≤ y := by
  induction t with
  | nil =>
    intro x y hy
    simp only [List.mem_singleton] at hy
    rw [hy]
    exact le_refl x
  | cons z t ih =>
    intro x y hy
    rw [List.foldl_cons]
    rcases List.mem_cons.mp hy with h1 | h1
    · rw [h1]
      exact le_trans (ih (min x z) _ (List.mem_cons_self _ _)) (min_le_left x z)
    · rcases List.mem_cons.mp h1 with h2 | h2
      · rw [h2]
        exact le_trans (ih (min x z) _ (List.mem_cons_self _ _)) (min_le_right x z)
      · exact ih (min x z) y (List.mem_cons_of_mem _ h2)

/-- The left fold of `max` lands on one of the folded elements. -/
theorem foldl_max_mem [LinearOrder α] (t : List α) :
    ∀ x : α, t.foldl max x ∈ x :: t := by
  induction t with
  | nil => intro x; simp
  | cons z t ih =>
    intro x
    rw [List.foldl_cons]
    rcases List.mem_cons.mp (ih (max x z)) with h1 | h1
    · rw [h1]
      rcases max_choice x z with hm | hm <;> rw [hm]
      · exact List.mem_cons_self _ _
      · exact List.mem_cons_of_mem _ (List.mem_cons_self _ _)
    · exact List.mem_cons_of_mem _ (List.mem_cons_of_mem _ h1)

/-- The left fold of `max` bounds every folded element from above. -/
theorem foldl_max_ge [LinearOrder α] (t : List α) :
    ∀ x : α, ∀ y ∈ x :: t, y ≤ t.foldl max x := by
  induction t with
  | nil =>
    intro x y hy
    simp only [List.mem_singleton] at hy
    rw [hy]
    exact le_refl x
  | cons z t ih =>
    intro x y hy
    rw [List.foldl_cons]
    rcases List.mem_cons.mp hy with h1 | h1
    · rw [h1]
      exact le_trans (le_max_left x z) (ih (max x z) _ (List.mem_cons_self _ _))
    · rcases List.mem_cons.mp h1 with h2 | h2
      · rw [h2]
        exact le_trans (le_max_right x z) (ih (max x z) _ (List.mem_cons_self _ _))
      · exact ih (max x z) y (List.mem_cons_of_mem _ h2)

/-- The sample variance is nonnegative once at least two entries exist. -/
theorem varStat_nonneg {xs : List ℚ} (h : 2 ≤ xs.length) :
    0 ≤ (xs.map (fun x => (x - xs.sum / (xs.length : ℚ)) ^ 2)).sum /
        ((xs.length : ℚ) - 1) := by
  apply div_nonneg
  · apply List.sum_nonneg
    intro y hy
    obtain ⟨x, _, hx⟩ := List.mem_map.mp hy
    rw [← hx]
    exact sq_nonneg _
  · have : (2 : ℚ) ≤ (xs.length : ℚ) := by exact_mod_cast h
    linarith

/-- Claim C5: for every table, `describe` with no column restriction succeeds
and returns the transposed statistics table: exactly the six statistic rows in
the order count, mean, median, std, min, max; one column per numeric input
column, non-numeric columns dropped without error, and an empty table when no
numeric column remains.  At each column position, with `xs` the column's
non-missing values: count is their number; mean their sum over their number;
the median comes from a sorted permutation of `xs` by the even/odd middle
split (averaging the two middle values when the count is even); the std entry
is the nonnegative square root of the sample variance (squared deviations
about the mean divided by `N - 1`, `NaN` below two values); min and max are
attained bounds of `xs`. -/
theorem describe_spec (df : DF) :
    describe df none = .ok (describeT df) ∧
    (describeT df).cols = df.numericCols ∧
    (describeT df).rows.map Prod.fst =
      ["count", "mean", "median", "std", "min", "max"] ∧
    (df.numericCols = [] → (describeT df).cols = [] ∧
      ∀ row ∈ (describeT df).rows, row.2 = []) ∧
    (∀ c ∈ df.cols, c ∉ df.numericCols → df.isNumericCol c = false) ∧
    (∀ i, i < df.numericCols.length →
      ∀ xs, xs = numsOf (df.col (df.numericCols.getD i "")) →
      (statEntry (describeT df) 0 i = some ((xs.length : ℚ) : ℝ)) ∧
      (xs = [] → statEntry (describeT df) 1 i = none) ∧
      (xs ≠ [] → statEntry (describeT df) 1 i =
        some (((xs.sum / (xs.length : ℚ)) : ℚ) : ℝ)) ∧
      (∃ s : List ℚ, s.Perm xs ∧ s.Sorted (fun a b => a ≤ b) ∧
        statEntry (describeT df) 2 i =
          (if s.length = 0 then none
           else if s.length % 2 = 1 then some ((s.getD (s.length / 2) 0 : ℚ) : ℝ)
           else some ((((s.getD (s.length / 2 - 1) 0 + s.getD (s.length / 2) 0) / 2 :
             ℚ)) : ℝ))) ∧
      (xs.length ≤ 1 → statEntry (describeT df) 3 i = none) ∧
      (2 ≤ xs.length → ∃ r : ℝ, statEntry (describeT df) 3 i = some r ∧ 0 ≤ r ∧
        r ^ 2 = (((xs.map (fun x => (x - xs.sum / (xs.length : ℚ)) ^ 2)).sum /
          ((xs.length : ℚ) - 1) : ℚ) : ℝ)) ∧
      (xs ≠ [] → ∃ m : ℚ, statEntry (describeT df) 4 i = some ((m : ℚ) : ℝ) ∧
        m ∈ xs ∧ ∀ y ∈ xs, m ≤ y) ∧
      (xs ≠ [] → ∃ m : ℚ, statEntry (describeT df) 5 i = some ((m : ℚ) : ℝ) ∧
        m ∈ xs ∧ ∀ y ∈ xs, y ≤ m)) := by
  have hmap : ∀ (f : List ℚ → Option ℝ) (i : Nat), i < df.numericCols.length →
      ((df.numericCols.map (fun c => numsOf (df.col c))).map f).getD i none =
        f (numsOf (df.col (df.numericCols.getD i ""))) := by
    intro f i hi
    rw [getD_map_lt f (by simpa using hi) none (numsOf (df.col ""))]
    rw [getD_map_lt (fun c => numsOf (df.col c)) hi (numsOf (df.col "")) ""]
  refine ⟨rfl, rfl, rfl, ?_, ?_, ?_⟩
  · intro h
    refine ⟨by simp [describeT, h], ?_⟩
    intro row hrow
    simp only [describeT, h, List.map_nil, List.mem_cons, List.not_mem_nil,
      or_false] at hrow
    rcases hrow with rfl | rfl | rfl | rfl | rfl | rfl <;> rfl
  · intro c hc hnc
    cases hb : df.isNumericCol c with
    | false => rfl
    | true =>
      have : c ∈ df.numericCols := by
        rw [DF.numericCols]
        exact List.mem_filter.mpr ⟨hc, by simp [hb]⟩
      exact absurd this hnc
  · intro i hi xs hxs
    have h0 : statEntry (describeT df) 0 i =
        some ((countStat (numsOf (df.col (df.numericCols.getD i ""))) : ℚ) : ℝ) :=
      hmap (fun ys => some ((countStat ys : ℚ) : ℝ)) i hi
    have h1 : statEntry (describeT df) 1 i =
        (meanStat (numsOf (df.col (df.numericCols.getD i "")))).map
          (fun q => (q : ℝ)) :=
      hmap (fun ys => (meanStat ys).map (fun q => (q : ℝ))) i hi
    have h2 : statEntry (describeT df) 2 i =
        (medianStat (numsOf (df.col (df.numericCols.getD i "")))).map
          (fun q => (q : ℝ)) :=
      hmap (fun ys => (medianStat ys).map (fun q => (q : ℝ))) i hi
    have h3 : statEntry (describeT df) 3 i =
        stdStat (numsOf (df.col (df.numericCols.getD i ""))) :=
      hmap (fun ys => stdStat ys) i hi
    have h4 : statEntry (describeT df) 4 i =
        (minStat (numsOf (df.col (df.numericCols.getD i "")))).map
          (fun q => (q : ℝ)) :=
      hmap (fun ys => (minStat ys).map (fun q => (q : ℝ))) i hi
    have h5 : statEntry (describeT df) 5 i =
        (maxStat (numsOf (df.col (df.numericCols.getD i "")))).map
          (fun q => (q : ℝ)) :=
      hmap (fun ys => (maxStat ys).map (fun q => (q : ℝ))) i hi
    rw [← hxs] at h0 h1 h2 h3 h4 h5
    refine ⟨?_, ?_, ?_, ?_, ?_, ?_, ?_, ?_⟩
    · rw [h0]; rfl
    · intro he
      rw [h1, he]
      simp [meanStat]
    · intro hne
      have hlen : ¬ xs.length = 0 := by
        simpa [List.length_eq_zero] using hne
      rw [h1]
      simp [meanStat, hlen]
    · refine ⟨sortedQ xs, List.perm_insertionSort _ _,
        List.sorted_insertionSort _ _, ?_⟩
      rw [h2]
      simp only [medianStat]
      split_ifs <;> simp
    · intro hle
      rw [h3]
      simp [stdStat, varStat, hle]
    · intro h2le
      have hgt : ¬ xs.length ≤ 1 := by omega
      refine ⟨Real.sqrt (((xs.map (fun x =>
          (x - xs.sum / (xs.length : ℚ)) ^ 2)).sum /
          ((xs.length : ℚ) - 1) : ℚ) : ℝ), ?_, Real.sqrt_nonneg _, ?_⟩
      · rw [h3]
        simp [stdStat, varStat, hgt]
      · exact Real.sq_sqrt (by exact_mod_cast varStat_nonneg h2le)
    · intro hne
      obtain ⟨x, t, hxt⟩ := List.exists_cons_of_ne_nil hne
      refine ⟨t.foldl min x, ?_, ?_, ?_⟩
      · rw [h4, hxt]
        simp [minStat]
      · rw [hxt]
        exact foldl_min_mem t x
      · intro y hy
        rw [hxt] at hy
        exact foldl_min_le t x y hy
    · intro hne
      obtain ⟨x, t, hxt⟩ := List.exists_cons_of_ne_nil hne
      refine ⟨t.foldl max x, ?_, ?_, ?_⟩
      · rw [h5, hxt]
        simp [maxStat]
      · rw [hxt]
        exact foldl_max_mem t x
      · intro y hy
        rw [hxt] at hy
        exact foldl_max_ge t x y hy

/-- Claim C5 witness: on the docstring table the first numeric column is
`age` with five non-missing values, and the count entry of the statistics
table records exactly five. -/
theorem describe_spec_witness :
    (0 < exDF3.numericCols.length ∧
      numsOf (exDF3.col (exDF3.numericCols.getD 0 "")) =
        ([25, 30, 35, 40, 45] : List ℚ)) ∧
    statEntry (describeT exDF3) 0 0 =
      some ((((25 : ℚ) :: [30, 35, 40, 45]).length : ℚ) : ℝ) := by
  refine ⟨⟨by decide, by decide⟩, ?_⟩
  have h := ((describe_spec exDF3).2.2.2.2.2 0 (by decide)
    (numsOf (exDF3.col (exDF3.numericCols.getD 0 ""))) rfl).1
  rw [h]
  rw [show numsOf (exDF3.col (exDF3.numericCols.getD 0 "")) =
    ([25, 30, 35, 40, 45] : List ℚ) from by decide]

end SurveyLib
